import Mathlib

/-!
Shallow embedding of the holo-attic configuration reconciliation engine.

The embedding covers, faithfully to the Go source:
- the shared file I/O layer of `src/common/fileio.go` (namespace `Common`):
  `IsManageableFile`, `IsFileInfoASymbolicLink`, `IsNewerThan`, `CopyFile`,
  `copyFileImpl`, `copySymlinkImpl`, `ApplyFilePermissions`;
- the early self-contained apply tool (the `main` package with `walkRepo`,
  namespace `HoloApply`): `walkRepo`, `applyCopy`, `applyProgram`,
  `isRegularFile`, `isNewerThan`, `copyFile`, `copyFileImpl`.

The filesystem is modelled as a flat partial map from absolute path strings to
nodes (regular file, symlink, directory, special file), each node carrying the
metadata the code reads and writes (mode, uid, gid, mtime).  OS primitives
(`os.Lstat`, `os.Stat`, `ioutil.ReadFile`, `ioutil.WriteFile`, `os.Chmod`,
`os.Chown`, `os.Chtimes`, `os.Remove`, `os.Readlink`, `os.Symlink`) are
modelled in namespace `OS`, including symlink resolution (with the Linux
fuel bound of 40 links) for the primitives that follow symlinks.
Wall-clock time and the calling process identity are threaded through an
explicit environment `Env`.  Removal of a path may be made to fail through
`Env.removeFails`, modelling an environmental error (e.g. a permission
failure on the parent directory) that the flat path map cannot express
structurally; all other primitives fail exactly when their modelled
preconditions fail.
-/

namespace HoloAttic

/-- Absolute filesystem paths, as the plain strings the Go code manipulates. -/
abbrev Path := String

/-- File metadata as read and written by the engine: permission bits, owner,
group, and modification time.  The mtime is kept as an integer timestamp;
only its ordering matters to the code. -/
structure Meta where
  mode : Nat
  uid : Nat
  gid : Nat
  mtime : Int
deriving DecidableEq, Repr

/-- One filesystem node: a regular file with content and metadata, a symbolic
link with its link target, a directory, or any other (special) file.
Content is a byte list. -/
inductive Node where
  | regular (content : List Nat) (meta : Meta)
  | symlink (target : Path) (meta : Meta)
  | dir (meta : Meta)
  | other (meta : Meta)
deriving DecidableEq, Repr

/-- Metadata of a node (every on-disk node has stat metadata). -/
def Node.meta : Node → Meta
  | Node.regular _ m => m
  | Node.symlink _ m => m
  | Node.dir m => m
  | Node.other m => m

/-- Replace a node's metadata, keeping its kind and content. -/
def Node.setMeta : Node → Meta → Node
  | Node.regular c _, m => Node.regular c m
  | Node.symlink t _, m => Node.symlink t m
  | Node.dir _, m => Node.dir m
  | Node.other _, m => Node.other m

/-- Go's `FileInfo.Mode().IsRegular()`. -/
def Node.isRegular : Node → Bool
  | Node.regular _ _ => true
  | _ => false

/-- The filesystem: a flat partial map from absolute paths to nodes. -/
abbrev FS := Path → Option Node

/-- Update the node stored at a path. -/
def FS.set (fs : FS) (p : Path) (n : Node) : FS :=
  fun q => if q = p then some n else fs q

/-- Delete the entry stored at a path. -/
def FS.del (fs : FS) (p : Path) : FS :=
  fun q => if q = p then none else fs q

/-- Execution environment: current wall-clock time, the identity of the
calling process (the tool runs as root), and the paths whose `os.Remove`
fails for environmental reasons (e.g. parent-directory permissions) that the
flat path map cannot represent structurally. -/
structure Env where
  now : Int
  uid : Nat
  gid : Nat
  removeFails : Path → Bool

namespace OS

/-- Symlink resolution with an explicit fuel bound, following the chain of
symlink nodes until a non-symlink path is reached.  `none` models `ELOOP`. -/
def resolveFuel (fs : FS) : Nat → Path → Option Path
  | 0, _ => none
  | Nat.succ fuel, p =>
    match fs p with
    | some (Node.symlink t _) => resolveFuel fs fuel t
    | _ => some p

/-- Full symlink resolution of a path, with the Linux bound of 40 links. -/
def resolve (fs : FS) (p : Path) : Option Path :=
  resolveFuel fs 40 p

/-- Go `os.Lstat`: stat without following a final symlink. -/
def lstat (fs : FS) (p : Path) : Option Node :=
  fs p

/-- Go `os.Stat`: stat following symlinks; fails on a dangling link or loop. -/
def stat (fs : FS) (p : Path) : Option Node :=
  match resolve fs p with
  | none => none
  | some q => fs q

/-- Go `ioutil.ReadFile`: follows symlinks; succeeds only on a regular file. -/
def readFile (fs : FS) (p : Path) : Option (List Nat) :=
  match stat fs p with
  | some (Node.regular c _) => some c
  | _ => none

/-- Go `ioutil.WriteFile(p, data, perm)`: follows symlinks; truncates an
existing regular file (keeping its mode and ownership, refreshing its mtime),
creates a new regular file with mode `perm` owned by the calling process, or
writes into an existing writable special (device) file — the open, write and
close all succeed there, the data is consumed by the device, and the inode
is left alone (timestamp updates on device writes are driver-specific, and
every caller of this primitive immediately overwrites the timestamps
anyway).  Writing over a directory fails (`EISDIR`); a symlink at the
resolved path cannot occur, since resolution never stops on one. -/
def writeFile (env : Env) (fs : FS) (p : Path) (data : List Nat) (perm : Nat) :
    Option FS :=
  match resolve fs p with
  | none => none
  | some q =>
    match fs q with
    | some (Node.regular _ m) =>
        some (FS.set fs q (Node.regular data { m with mtime := env.now }))
    | none =>
        some (FS.set fs q (Node.regular data
          { mode := perm, uid := env.uid, gid := env.gid, mtime := env.now }))
    | some (Node.other _) => some fs
    | some _ => none

/-- Go `os.Chmod`: follows symlinks, sets the permission bits. -/
def chmod (fs : FS) (p : Path) (mode : Nat) : Option FS :=
  match resolve fs p with
  | none => none
  | some q =>
    match fs q with
    | none => none
    | some n => some (FS.set fs q (Node.setMeta n { n.meta with mode := mode }))

/-- Go `os.Chown`: follows symlinks, sets owner and group. -/
def chown (fs : FS) (p : Path) (uid gid : Nat) : Option FS :=
  match resolve fs p with
  | none => none
  | some q =>
    match fs q with
    | none => none
    | some n =>
        some (FS.set fs q (Node.setMeta n { n.meta with uid := uid, gid := gid }))

/-- Go `os.Chtimes` (with equal atime and mtime, as the code always passes):
follows symlinks, sets the mtime. -/
def chtimes (fs : FS) (p : Path) (mtime : Int) : Option FS :=
  match resolve fs p with
  | none => none
  | some q =>
    match fs q with
    | none => none
    | some n => some (FS.set fs q (Node.setMeta n { n.meta with mtime := mtime }))

/-- Go `os.Remove` on a non-directory: deletes the entry at the path itself
(symlinks are not followed).  Fails when the entry does not exist, or for the
paths on which the environment makes removal fail.  Directory removal (rmdir)
is not modelled, as the code under verification never removes a directory. -/
def remove (env : Env) (fs : FS) (p : Path) : Option FS :=
  if env.removeFails p then none
  else
    match fs p with
    | none => none
    | some (Node.dir _) => none
    | some _ => some (FS.del fs p)

/-- Go `os.Readlink`: reads a symlink's target; fails on non-symlinks. -/
def readlink (fs : FS) (p : Path) : Option Path :=
  match fs p with
  | some (Node.symlink t _) => some t
  | _ => none

/-- Go `os.Symlink(target, p)`: creates a new symlink at `p`; fails with
`EEXIST` when any entry (including a dangling symlink) already sits at `p`.
A fresh symlink carries mode 0777, the calling process's ownership, and the
current time; none of these are settable afterwards on the link itself. -/
def symlink (env : Env) (fs : FS) (target p : Path) : Option FS :=
  match fs p with
  | some _ => none
  | none =>
      some (FS.set fs p (Node.symlink target
        { mode := 511, uid := env.uid, gid := env.gid, mtime := env.now }))

end OS

/-! The shared file I/O layer of `src/common/fileio.go` (package `common`). -/

namespace Common

/-- Go `IsFileInfoASymbolicLink(fileInfo)`: whether the given stat result
describes a symlink (`(fileInfo.Mode() & os.ModeType) == os.ModeSymlink`). -/
def IsFileInfoASymbolicLink (n : Node) : Bool :=
  match n with
  | Node.symlink _ _ => true
  | _ => false

/-- Go `IsManageableFile(path)`: `os.Lstat` succeeds and the entry is a
regular file or a symlink. -/
def IsManageableFile (fs : FS) (p : Path) : Bool :=
  match OS.lstat fs p with
  | none => false
  | some info => info.isRegular || IsFileInfoASymbolicLink info

/-- Go `IsNewerThan(path1, path2)`: `os.Lstat` both paths (an error on either
is returned), treat a symlink at `path1` as never newer, and otherwise compare
the mtimes strictly (`info1.ModTime().After(info2.ModTime())`). -/
def IsNewerThan (fs : FS) (path1 path2 : Path) : Except String Bool :=
  match OS.lstat fs path1 with
  | none => Except.error "lstat path1: no such file"
  | some info1 =>
    match OS.lstat fs path2 with
    | none => Except.error "lstat path2: no such file"
    | some info2 =>
      if IsFileInfoASymbolicLink info1 then Except.ok false
      else Except.ok (decide (info2.meta.mtime < info1.meta.mtime))

/-- Go `ApplyFilePermissions(fromPath, toPath)`: `os.Lstat` both paths; when
the destination is itself a symlink do nothing at all; otherwise apply the
source's mode, ownership and mtime to the destination in that order. -/
def ApplyFilePermissions (fs : FS) (fromPath toPath : Path) :
    Except String FS :=
  match OS.lstat fs fromPath with
  | none => Except.error "lstat fromPath: no such file"
  | some info =>
    match OS.lstat fs toPath with
    | none => Except.error "lstat toPath: no such file"
    | some targetInfo =>
      if IsFileInfoASymbolicLink targetInfo then Except.ok fs
      else
        match OS.chmod fs toPath info.meta.mode with
        | none => Except.error "chmod failed"
        | some fs1 =>
          match OS.chown fs1 toPath info.meta.uid info.meta.gid with
          | none => Except.error "chown failed"
          | some fs2 =>
            match OS.chtimes fs2 toPath info.meta.mtime with
            | none => Except.error "chtimes failed"
            | some fs3 => Except.ok fs3

/-- Go `copyFileImpl(fromPath, toPath)` of package `common`: read the source,
write the destination with mode 0600, then `ApplyFilePermissions`. -/
def copyFileImpl (env : Env) (fs : FS) (fromPath toPath : Path) :
    Except String FS :=
  match OS.readFile fs fromPath with
  | none => Except.error "read failed"
  | some data =>
    match OS.writeFile env fs toPath data 384 with
    | none => Except.error "write failed"
    | some fs1 => ApplyFilePermissions fs1 fromPath toPath

/-- Go `copySymlinkImpl(fromPath, toPath)`: read the source link's target,
remove any manageable (regular or symlink) entry at the destination, and
create a fresh symlink there.  No metadata is applied to the new link. -/
def copySymlinkImpl (env : Env) (fs : FS) (fromPath toPath : Path) :
    Except String FS :=
  match OS.readlink fs fromPath with
  | none => Except.error "readlink failed"
  | some target =>
    let removed : Option FS :=
      if IsManageableFile fs toPath then OS.remove env fs toPath else some fs
    match removed with
    | none => Except.error "remove failed"
    | some fs1 =>
      match OS.symlink env fs1 target toPath with
      | none => Except.error "symlink failed"
      | some fs2 => Except.ok fs2

/-- Go `CopyFile(fromPath, toPath)`: `os.Lstat` the source, dispatching a
regular source to `copyFileImpl` and everything else to `copySymlinkImpl`. -/
def CopyFile (env : Env) (fs : FS) (fromPath toPath : Path) :
    Except String FS :=
  match OS.lstat fs fromPath with
  | none => Except.error "lstat fromPath: no such file"
  | some info =>
    if info.isRegular then copyFileImpl env fs fromPath toPath
    else copySymlinkImpl env fs fromPath toPath

end Common

/-! String and path helpers used by the apply tool, mirroring the Go standard
library calls it makes (`strings.HasSuffix`, `strings.TrimSuffix`,
`filepath.Rel`, `filepath.Join`). -/

/-- Go `strings.HasSuffix(s, suf)`. -/
def strHasSuffix (s suf : String) : Bool :=
  decide (suf.data <:+ s.data)

/-- Go `strings.TrimSuffix(s, suf)`: drop the suffix when present, otherwise
return the string unchanged. -/
def strTrimSuffix (s suf : String) : String :=
  if strHasSuffix s suf then String.mk (s.data.take (s.data.length - suf.data.length))
  else s

/-- Go `filepath.Rel(base, p)`, specialised to the shape in which the tool
calls it: `base` a clean absolute directory and `p` a clean path strictly
beneath it, so the result is `p` with the leading `base ++ "/"` removed. -/
def pathRel (base p : Path) : Path :=
  String.mk (p.data.drop (base ++ "/").data.length)

/-- Go `filepath.Join(base, p)` for a clean absolute `base` and a clean
relative `p`. -/
def pathJoin (base p : Path) : Path :=
  if base = "/" then "/" ++ p else base ++ "/" ++ p

/-! The early self-contained apply tool (package `main` of the attic source:
`msg`, `walkRepo`, `applyCopy`, `applyProgram`, `isRegularFile`,
`isNewerThan`, `copyFile`, `copyFileImpl`). -/

namespace HoloApply

/-- Colour code the tool uses for error messages. -/
def msgError : String := "31"

/-- Colour code the tool uses for informational messages. -/
def msgInfo : String := "38"

/-- One line printed through `msg(color, message)`. -/
structure Msg where
  color : String
  text : String
deriving DecidableEq, Repr

/-- The repository root the tool walks (`/holo/repo`). -/
def repoRoot : Path := "/holo/repo"

/-- The backup root (`/holo/backup`). -/
def backupRoot : Path := "/holo/backup"

/-- The two application strategies selected by the repository file suffix
(in the source, the function values `applyCopy` and `applyProgram`). -/
inductive Strategy where
  | copy
  | externalProgram
deriving DecidableEq, Repr

/-- Go `isRegularFile(path)`: `os.Lstat` succeeds and reports a regular file. -/
def isRegularFile (fs : FS) (p : Path) : Bool :=
  match OS.lstat fs p with
  | none => false
  | some info => info.isRegular

/-- Go `isNewerThan(path1, path2)` of the apply tool: `os.Stat` both paths
(following symlinks; a stat error panics, modelled as `Except.error`), then
compare mtimes strictly (`info1.ModTime().After(info2.ModTime())`). -/
def isNewerThan (fs : FS) (path1 path2 : Path) : Except String Bool :=
  match OS.stat fs path1 with
  | none => Except.error "stat path1: no such file"
  | some info1 =>
    match OS.stat fs path2 with
    | none => Except.error "stat path2: no such file"
    | some info2 => Except.ok (decide (info2.meta.mtime < info1.meta.mtime))

/-- Go `copyFileImpl(fromPath, toPath)` of the apply tool: read the source,
write the destination with mode 0600, then unconditionally apply the source's
mode, ownership and mtime (read back through `os.Stat`) to the destination. -/
def copyFileImpl (env : Env) (fs : FS) (fromPath toPath : Path) :
    Except String FS :=
  match OS.readFile fs fromPath with
  | none => Except.error "read failed"
  | some data =>
    match OS.writeFile env fs toPath data 384 with
    | none => Except.error "write failed"
    | some fs1 =>
      match OS.stat fs1 fromPath with
      | none => Except.error "stat failed"
      | some info =>
        match OS.chmod fs1 toPath info.meta.mode with
        | none => Except.error "chmod failed"
        | some fs2 =>
          match OS.chown fs2 toPath info.meta.uid info.meta.gid with
          | none => Except.error "chown failed"
          | some fs3 =>
            match OS.chtimes fs3 toPath info.meta.mtime with
            | none => Except.error "chtimes failed"
            | some fs4 => Except.ok fs4

/-- Go `copyFile(fromPath, toPath)`: `copyFileImpl`, panicking on error with
the message `Cannot copy <from> to <to>: ...`. -/
def copyFile (env : Env) (fs : FS) (fromPath toPath : Path) :
    Except String FS :=
  match copyFileImpl env fs fromPath toPath with
  | Except.error e =>
      Except.error ("Cannot copy " ++ fromPath ++ " to " ++ toPath ++ ": " ++ e)
  | Except.ok fs1 => Except.ok fs1

/-- Go `applyCopy(repoPath, backupPath, targetPath)`: copy the repository file
over the target. -/
def applyCopy (env : Env) (fs : FS) (repoPath _backupPath targetPath : Path) :
    Except String FS :=
  copyFile env fs repoPath targetPath

/-- Go `applyProgram(repoPath, backupPath, targetPath)`: the source body is an
empty `TODO` stub, so the call does nothing. -/
def applyProgram (_env : Env) (fs : FS) (_repoPath _backupPath _targetPath : Path) :
    Except String FS :=
  Except.ok fs

/-- Dispatch of the `applicationStrategy` function value chosen in
`walkRepo`. -/
def runStrategy (env : Env) (strat : Strategy) (fs : FS)
    (repoPath backupPath targetPath : Path) : Except String FS :=
  match strat with
  | Strategy.copy => applyCopy env fs repoPath backupPath targetPath
  | Strategy.externalProgram => applyProgram env fs repoPath backupPath targetPath

/-- The strategy selected in `walkRepo`'s suffix switch: a `.holoscript`
suffix selects the external-program strategy, anything else the copy
strategy. -/
def strategyOf (repoPath : Path) : Strategy :=
  if strHasSuffix repoPath ".holoscript" then Strategy.externalProgram
  else Strategy.copy

/-- `repoBasePath` as computed in `walkRepo`: the repository path with the
`.holoscript` suffix stripped when present. -/
def repoBasePathOf (repoPath : Path) : Path :=
  if strHasSuffix repoPath ".holoscript" then strTrimSuffix repoPath ".holoscript"
  else repoPath

/-- `targetPath` as computed in `walkRepo`:
`filepath.Join("/", filepath.Rel("/holo/repo", repoBasePath))`. -/
def targetPathOf (repoPath : Path) : Path :=
  pathJoin "/" (pathRel repoRoot (repoBasePathOf repoPath))

/-- `backupPath` as computed in `walkRepo`:
`filepath.Join("/holo/backup", filepath.Rel("/holo/repo", repoBasePath))`. -/
def backupPathOf (repoPath : Path) : Path :=
  pathJoin backupRoot (pathRel repoRoot (repoBasePathOf repoPath))

/-- The outcome of one `walkRepo` invocation: the filesystem afterwards, the
lines printed through `msg`, and the error value returned to
`filepath.Walk` (`none` is Go `nil`, letting the walk continue). -/
structure Outcome where
  fs : FS
  msgs : List Msg
  result : Option String

/-- The body of `walkRepo` after the entry checks, up to the deferred
`recover`.  A Go panic is modelled as `Except.error` carrying the filesystem
and messages accumulated so far together with the panic message.

Steps, as in the source: compute the strategy and the related paths; require
a regular file at the target (step 1); back the target up on first encounter
(step 2; `os.MkdirAll` on the backup directory always succeeds here, the flat
path map not tracking directories); absorb a `.pacnew` sibling into the
backup and remove it, ignoring a removal failure (step 2.5); unless the
backup was just created, panic when the target is newer than the repository
file (step 3; the source compares against `repoPath`, relying on `copyFile`
having copied the repository file's mtime onto the target); finally run the
application strategy. -/
def walkRepoBody (env : Env) (fs0 : FS) (repoPath : Path) :
    Except (FS × List Msg × String) (FS × List Msg) :=
  let strat := strategyOf repoPath
  let targetPath := targetPathOf repoPath
  let backupPath := backupPathOf repoPath
  let pacnewPath := targetPath ++ ".pacnew"
  if isRegularFile fs0 targetPath = false then
    Except.error (fs0, [], targetPath ++ " is not a regular file")
  else
    let step2 : Except (FS × List Msg × String) (FS × List Msg × Bool) :=
      if isRegularFile fs0 backupPath then Except.ok (fs0, [], false)
      else
        let m1 := Msg.mk msgInfo ("Saving " ++ targetPath ++ " in /holo/backup")
        match copyFile env fs0 targetPath backupPath with
        | Except.error e => Except.error (fs0, [m1], e)
        | Except.ok fs1 => Except.ok (fs1, [m1], true)
    match step2 with
    | Except.error e => Except.error e
    | Except.ok (fs1, msgs1, skipIntegrityCheck) =>
      let step25 : Except (FS × List Msg × String) (FS × List Msg) :=
        if isRegularFile fs1 pacnewPath then
          let m2 := Msg.mk msgInfo ("Saving " ++ pacnewPath ++ " in /holo/backup")
          match copyFile env fs1 pacnewPath backupPath with
          | Except.error e => Except.error (fs1, msgs1 ++ [m2], e)
          | Except.ok fs2 =>
            match OS.remove env fs2 pacnewPath with
            | none => Except.ok (fs2, msgs1 ++ [m2])
            | some fs3 => Except.ok (fs3, msgs1 ++ [m2])
        else Except.ok (fs1, msgs1)
      match step25 with
      | Except.error e => Except.error e
      | Except.ok (fs2, msgs2) =>
        let check : Except (FS × List Msg × String) Bool :=
          if skipIntegrityCheck then Except.ok false
          else
            match isNewerThan fs2 targetPath repoPath with
            | Except.error e => Except.error (fs2, msgs2, e)
            | Except.ok b => Except.ok b
        match check with
        | Except.error e => Except.error e
        | Except.ok true =>
            Except.error (fs2, msgs2,
              "Skipping " ++ targetPath ++ ": has been modified by user")
        | Except.ok false =>
          let m3 := Msg.mk msgInfo ("Installing " ++ targetPath)
          match runStrategy env strat fs2 repoPath backupPath targetPath with
          | Except.error e => Except.error (fs2, msgs2 ++ [m3], e)
          | Except.ok fs3 => Except.ok (fs3, msgs2 ++ [m3])

/-- Go `walkRepo(repoPath, repoInfo, err)`: propagate a walk error unchanged;
skip anything that is not a regular file; otherwise run the body, with the
deferred `recover` turning any panic into an error-coloured message and a
`nil` result.  `repoInfo` is the walk's `os.Lstat` of `repoPath`, so it is
taken from the filesystem (a path the walk could not stat arrives with
`err` set and is covered by the first branch). -/
def walkRepo (env : Env) (fs0 : FS) (repoPath : Path) (err : Option String) :
    Outcome :=
  match err with
  | some e => Outcome.mk fs0 [] (some e)
  | none =>
    match fs0 repoPath with
    | some (Node.regular _ _) =>
      (match walkRepoBody env fs0 repoPath with
       | Except.ok (fs1, msgs) => Outcome.mk fs1 msgs none
       | Except.error (fs1, msgs, m) =>
           Outcome.mk fs1 (msgs ++ [Msg.mk msgError m]) none)
    | _ => Outcome.mk fs0 [] none

end HoloApply

/-! Concrete states used by the witnesses and counterexamples. -/

/-- Witness environment: removal never fails environmentally. -/
def envW : Env := { now := 100, uid := 0, gid := 0, removeFails := fun _ => false }

/-- Witness environment in which removing the absorbed artifact fails. -/
def envRF : Env :=
  { now := 100, uid := 0, gid := 0,
    removeFails := fun p => decide (p = "/etc/app.conf.pacnew") }

/-- Witness metadata with a given mtime. -/
def metaW (t : Int) : Meta := { mode := 420, uid := 0, gid := 0, mtime := t }

/-- Tracked target, externally modified: target mtime 20, repository file
mtime 10, backup mtime 5, no artifact. -/
def fsW1 : FS := fun p =>
  if p = "/etc/app.conf" then some (Node.regular [67] (metaW 20))
  else if p = "/holo/repo/etc/app.conf" then some (Node.regular [66] (metaW 10))
  else if p = "/holo/backup/etc/app.conf" then some (Node.regular [65] (metaW 5))
  else none

/-- First encounter: target and repository file exist, no backup yet. -/
def fsW3 : FS := fun p =>
  if p = "/etc/app.conf" then some (Node.regular [65] (metaW 5))
  else if p = "/holo/repo/etc/app.conf" then some (Node.regular [66] (metaW 10))
  else none

/-- Tracked target whose mtime (5) is newer than the backup's (0) but older
than the repository file's (10). -/
def fsC4 : FS := fun p =>
  if p = "/etc/app.conf" then some (Node.regular [67] (metaW 5))
  else if p = "/holo/repo/etc/app.conf" then some (Node.regular [66] (metaW 10))
  else if p = "/holo/backup/etc/app.conf" then some (Node.regular [65] (metaW 0))
  else none

/-- Tracked, modified target with a `.pacnew` artifact next to it. -/
def fsW2 : FS := fun p =>
  if p = "/etc/app.conf" then some (Node.regular [67] (metaW 20))
  else if p = "/holo/repo/etc/app.conf" then some (Node.regular [66] (metaW 10))
  else if p = "/holo/backup/etc/app.conf" then some (Node.regular [65] (metaW 5))
  else if p = "/etc/app.conf.pacnew" then some (Node.regular [68] (metaW 30))
  else none

/-- Tracked target whose mtime equals the repository file's. -/
def fsW9 : FS := fun p =>
  if p = "/etc/app.conf" then some (Node.regular [66] (metaW 10))
  else if p = "/holo/repo/etc/app.conf" then some (Node.regular [66] (metaW 10))
  else if p = "/holo/backup/etc/app.conf" then some (Node.regular [65] (metaW 5))
  else none

/-- Repository entry with no regular file at the target position. -/
def fsW6b : FS := fun p =>
  if p = "/holo/repo/etc/app.conf" then some (Node.regular [66] (metaW 10))
  else none

/-- First-encounter state in which a directory occupies the backup path. -/
def fsW6c : FS := fun p =>
  if p = "/etc/app.conf" then some (Node.regular [65] (metaW 5))
  else if p = "/holo/repo/etc/app.conf" then some (Node.regular [66] (metaW 10))
  else if p = "/holo/backup/etc/app.conf" then some (Node.dir (metaW 1))
  else none

/-- Shorthand: whether the entry currently sitting at a path is a symlink
(false also when nothing sits there). -/
def isSymlinkAt (fs : FS) (p : Path) : Bool :=
  match fs p with
  | some n => Common.IsFileInfoASymbolicLink n
  | none => false

/-- Regular source at `/s` and a dangling symlink to `/e` at `/d`. -/
def fsC5 : FS := fun p =>
  if p = "/s" then some (Node.regular [1] (Meta.mk 420 3 4 7))
  else if p = "/d" then some (Node.symlink "/e" (Meta.mk 511 0 0 50))
  else none

/-- The state `CopyFile` actually produces on `fsC5`: the content lands at
the link target `/e`, freshly created with mode 0600 and the copier's
identity and time. -/
def fsC5' : FS := FS.set fsC5 "/e" (Node.regular [1] (Meta.mk 384 0 0 100))

/-- Shorthand: whether the entry currently sitting at a path is a special
(device) file (false also when nothing sits there). -/
def isSpecialAt (fs : FS) (p : Path) : Bool :=
  match fs p with
  | some (Node.other _) => true
  | _ => false

/-- Regular source at `/s` and a writable special (device) file at
`/devnull`. -/
def fsC5b : FS := fun p =>
  if p = "/s" then some (Node.regular [1] (Meta.mk 420 3 4 7))
  else if p = "/devnull" then some (Node.other (Meta.mk 438 0 0 50))
  else none

/-- The state `CopyFile` actually produces on `fsC5b`: the write is consumed
by the device, and `ApplyFilePermissions` then applies the source's mode,
ownership and mtime to the device inode — which stays a device holding no
content. -/
def fsC5b' : FS :=
  FS.set (FS.set (FS.set fsC5b "/devnull" (Node.other (Meta.mk 420 0 0 50)))
    "/devnull" (Node.other (Meta.mk 420 3 4 50)))
    "/devnull" (Node.other (Meta.mk 420 3 4 7))

/-- A single regular file, used to copy a path onto itself. -/
def fsC5c : FS := fun p =>
  if p = "/s" then some (Node.regular [1] (Meta.mk 420 3 4 7))
  else none

/-- The state `CopyFile` actually produces on `fsC5c` when the destination
is the source itself: `WriteFile` refreshes the mtime to the current time,
and `ApplyFilePermissions` then re-reads the already-rewritten file, so the
pre-copy mtime (7) is replaced by the copy time (100). -/
def fsC5c' : FS :=
  FS.set (FS.set (FS.set (FS.set fsC5c "/s"
    (Node.regular [1] (Meta.mk 420 3 4 100)))
    "/s" (Node.regular [1] (Meta.mk 420 3 4 100)))
    "/s" (Node.regular [1] (Meta.mk 420 3 4 100)))
    "/s" (Node.regular [1] (Meta.mk 420 3 4 100))

/-- Distinct regular source and regular destination for the C5 witness. -/
def fsW5 : FS := fun p =>
  if p = "/s" then some (Node.regular [1] (Meta.mk 420 3 4 7))
  else if p = "/d" then some (Node.regular [2] (Meta.mk 493 5 6 9))
  else none

/-- Symlink with an mtime far newer than the regular file next to it. -/
def fsW8 : FS := fun p =>
  if p = "/ln" then some (Node.symlink "/tgt" (metaW 99))
  else if p = "/f" then some (Node.regular [1] (metaW 1))
  else none

/-- Symlink source plus a regular file at the destination for C10. -/
def fsW10 : FS := fun p =>
  if p = "/ln" then some (Node.symlink "/tgt" (metaW 7))
  else if p = "/old" then some (Node.regular [9] (metaW 3))
  else none

/-! Pointwise facts about filesystem updates. -/

@[simp] theorem FS.set_self (fs : FS) (p : Path) (n : Node) :
    FS.set fs p n p = some n := by
  simp [FS.set]

theorem FS.set_ne (fs : FS) (p : Path) (n : Node) {q : Path} (h : q ≠ p) :
    FS.set fs p n q = fs q := by
  simp [FS.set, h]

@[simp] theorem FS.del_self (fs : FS) (p : Path) : FS.del fs p p = none := by
  simp [FS.del]

theorem FS.del_ne (fs : FS) (p : Path) {q : Path} (h : q ≠ p) :
    FS.del fs p q = fs q := by
  simp [FS.del, h]

theorem FS.set_set (fs : FS) (p : Path) (a b : Node) :
    FS.set (FS.set fs p a) p b = FS.set fs p b := by
  funext q
  by_cases h : q = p <;> simp [FS.set, h]

/-! Evaluation lemmas for the OS primitives, used to compute the engine's
behaviour on states described by pointwise hypotheses. -/

theorem OS.resolve_regular {fs : FS} {p : Path} {c : List Nat} {m : Meta}
    (h : fs p = some (Node.regular c m)) : OS.resolve fs p = some p := by
  show OS.resolveFuel fs (Nat.succ 39) p = some p
  simp [OS.resolveFuel, h]

theorem OS.resolve_none {fs : FS} {p : Path} (h : fs p = none) :
    OS.resolve fs p = some p := by
  show OS.resolveFuel fs (Nat.succ 39) p = some p
  simp [OS.resolveFuel, h]

theorem OS.resolve_dir {fs : FS} {p : Path} {m : Meta}
    (h : fs p = some (Node.dir m)) : OS.resolve fs p = some p := by
  show OS.resolveFuel fs (Nat.succ 39) p = some p
  simp [OS.resolveFuel, h]

theorem OS.stat_regular {fs : FS} {p : Path} {c : List Nat} {m : Meta}
    (h : fs p = some (Node.regular c m)) :
    OS.stat fs p = some (Node.regular c m) := by
  simp [OS.stat, OS.resolve_regular h, h]

theorem OS.readFile_regular {fs : FS} {p : Path} {c : List Nat} {m : Meta}
    (h : fs p = some (Node.regular c m)) : OS.readFile fs p = some c := by
  simp [OS.readFile, OS.stat_regular h]

theorem OS.writeFile_regular {env : Env} {fs : FS} {p : Path} {c0 : List Nat}
    {m0 : Meta} (data : List Nat) (perm : Nat)
    (h : fs p = some (Node.regular c0 m0)) :
    OS.writeFile env fs p data perm =
      some (FS.set fs p (Node.regular data { m0 with mtime := env.now })) := by
  simp [OS.writeFile, OS.resolve_regular h, h]

theorem OS.writeFile_new {env : Env} {fs : FS} {p : Path}
    (data : List Nat) (perm : Nat) (h : fs p = none) :
    OS.writeFile env fs p data perm =
      some (FS.set fs p (Node.regular data
        { mode := perm, uid := env.uid, gid := env.gid, mtime := env.now })) := by
  simp [OS.writeFile, OS.resolve_none h, h]

theorem OS.writeFile_dir {env : Env} {fs : FS} {p : Path} {m : Meta}
    (data : List Nat) (perm : Nat) (h : fs p = some (Node.dir m)) :
    OS.writeFile env fs p data perm = none := by
  simp [OS.writeFile, OS.resolve_dir h, h]

theorem OS.chmod_regular {fs : FS} {p : Path} {c : List Nat} {m : Meta}
    (mode : Nat) (h : fs p = some (Node.regular c m)) :
    OS.chmod fs p mode =
      some (FS.set fs p (Node.regular c { m with mode := mode })) := by
  simp [OS.chmod, OS.resolve_regular h, h, Node.setMeta, Node.meta]

theorem OS.chown_regular {fs : FS} {p : Path} {c : List Nat} {m : Meta}
    (uid gid : Nat) (h : fs p = some (Node.regular c m)) :
    OS.chown fs p uid gid =
      some (FS.set fs p (Node.regular c { m with uid := uid, gid := gid })) := by
  simp [OS.chown, OS.resolve_regular h, h, Node.setMeta, Node.meta]

theorem OS.chtimes_regular {fs : FS} {p : Path} {c : List Nat} {m : Meta}
    (mtime : Int) (h : fs p = some (Node.regular c m)) :
    OS.chtimes fs p mtime =
      some (FS.set fs p (Node.regular c { m with mtime := mtime })) := by
  simp [OS.chtimes, OS.resolve_regular h, h, Node.setMeta, Node.meta]

theorem OS.remove_ok {env : Env} {fs : FS} {p : Path} {c : List Nat} {m : Meta}
    (hf : env.removeFails p = false) (h : fs p = some (Node.regular c m)) :
    OS.remove env fs p = some (FS.del fs p) := by
  simp [OS.remove, hf, h]

theorem OS.remove_fails {env : Env} {fs : FS} {p : Path}
    (hf : env.removeFails p = true) : OS.remove env fs p = none := by
  simp [OS.remove, hf]

@[simp] theorem Meta.eta (m : Meta) : Meta.mk m.mode m.uid m.gid m.mtime = m := rfl

/-! Evaluation lemmas for the apply tool's `copyFile`: copying a regular
source over an existing regular destination, onto a fresh path, and the
failure when the destination position holds a directory. -/

theorem HoloApply.copyFile_to_regular {env : Env} {fs : FS} {fromP toP : Path}
    {cf ct : List Nat} {mf mt : Meta}
    (hf : fs fromP = some (Node.regular cf mf))
    (ht : fs toP = some (Node.regular ct mt))
    (hne : fromP ≠ toP) :
    HoloApply.copyFile env fs fromP toP =
      Except.ok (FS.set fs toP (Node.regular cf mf)) := by
  have h1 := OS.readFile_regular hf
  have h2 := @OS.writeFile_regular env _ _ _ _ cf 384 ht
  have hf1 : FS.set fs toP (Node.regular cf { mt with mtime := env.now }) fromP =
      some (Node.regular cf mf) := by rw [FS.set_ne _ _ _ hne]; exact hf
  have h3 := OS.stat_regular hf1
  have h4 := @OS.chmod_regular (FS.set fs toP (Node.regular cf { mt with mtime := env.now }))
    _ _ _ mf.mode (FS.set_self ..)
  rw [FS.set_set] at h4
  have h5 := @OS.chown_regular
    (FS.set fs toP (Node.regular cf
      { mode := mf.mode, uid := mt.uid, gid := mt.gid, mtime := env.now }))
    _ _ _ mf.uid mf.gid (FS.set_self ..)
  rw [FS.set_set] at h5
  have h6 := @OS.chtimes_regular
    (FS.set fs toP (Node.regular cf
      { mode := mf.mode, uid := mf.uid, gid := mf.gid, mtime := env.now }))
    _ _ _ mf.mtime (FS.set_self ..)
  rw [FS.set_set] at h6
  simp [HoloApply.copyFile, HoloApply.copyFileImpl, Node.meta, h1, h2, h3, h4, h5, h6]

theorem HoloApply.copyFile_to_new {env : Env} {fs : FS} {fromP toP : Path}
    {cf : List Nat} {mf : Meta}
    (hf : fs fromP = some (Node.regular cf mf))
    (ht : fs toP = none)
    (hne : fromP ≠ toP) :
    HoloApply.copyFile env fs fromP toP =
      Except.ok (FS.set fs toP (Node.regular cf mf)) := by
  have h1 := OS.readFile_regular hf
  have h2 := @OS.writeFile_new env _ _ cf 384 ht
  have hf1 : FS.set fs toP (Node.regular cf
      { mode := 384, uid := env.uid, gid := env.gid, mtime := env.now }) fromP =
      some (Node.regular cf mf) := by rw [FS.set_ne _ _ _ hne]; exact hf
  have h3 := OS.stat_regular hf1
  have h4 := @OS.chmod_regular (FS.set fs toP (Node.regular cf
      { mode := 384, uid := env.uid, gid := env.gid, mtime := env.now }))
    _ _ _ mf.mode (FS.set_self ..)
  rw [FS.set_set] at h4
  have h5 := @OS.chown_regular (FS.set fs toP (Node.regular cf
      { mode := mf.mode, uid := env.uid, gid := env.gid, mtime := env.now }))
    _ _ _ mf.uid mf.gid (FS.set_self ..)
  rw [FS.set_set] at h5
  have h6 := @OS.chtimes_regular (FS.set fs toP (Node.regular cf
      { mode := mf.mode, uid := mf.uid, gid := mf.gid, mtime := env.now }))
    _ _ _ mf.mtime (FS.set_self ..)
  rw [FS.set_set] at h6
  simp [HoloApply.copyFile, HoloApply.copyFileImpl, Node.meta, h1, h2, h3, h4, h5, h6]

theorem HoloApply.copyFile_to_dir {env : Env} {fs : FS} {fromP toP : Path}
    {cf : List Nat} {mf md : Meta}
    (hf : fs fromP = some (Node.regular cf mf))
    (ht : fs toP = some (Node.dir md)) :
    HoloApply.copyFile env fs fromP toP =
      Except.error ("Cannot copy " ++ fromP ++ " to " ++ toP ++ ": write failed") := by
  have h1 := OS.readFile_regular hf
  have h2 := @OS.writeFile_dir env _ _ _ cf 384 ht
  simp only [HoloApply.copyFile, HoloApply.copyFileImpl, h1, h2]
  rw [String.append_assoc, show (": " ++ "write failed" : String) = ": write failed" by decide]

/-! String and path computation lemmas. -/

theorem strHasSuffix_append (s suf : String) : strHasSuffix (s ++ suf) suf = true := by
  simp only [strHasSuffix, String.data_append, decide_eq_true_eq]
  exact List.suffix_append s.data suf.data

theorem strTrimSuffix_append (s suf : String) : strTrimSuffix (s ++ suf) suf = s := by
  simp only [strTrimSuffix, strHasSuffix_append, if_true]
  rw [String.data_append, List.length_append, Nat.add_sub_cancel, List.take_left]

theorem pathRel_under (base r : String) : pathRel base ((base ++ "/") ++ r) = r := by
  show String.mk (((base ++ "/") ++ r).data.drop ((base ++ "/").data.length)) = r
  rw [show ((base ++ "/") ++ r).data = (base ++ "/").data ++ r.data from
    String.data_append _ _, List.drop_left]

theorem str_ne_of_length {a b : String} (h : a.length ≠ b.length) : a ≠ b :=
  fun hab => h (congrArg String.length hab)

theorem repo_ne_target (r : String) : ("/holo/repo/" ++ r) ≠ ("/" ++ r) := by
  apply str_ne_of_length
  rw [String.length_append, String.length_append,
    show ("/holo/repo/" : String).length = 11 from rfl,
    show ("/" : String).length = 1 from rfl]
  omega

theorem target_ne_backup (r : String) : ("/" ++ r) ≠ ("/holo/backup/" ++ r) := by
  apply str_ne_of_length
  rw [String.length_append, String.length_append,
    show ("/holo/backup/" : String).length = 13 from rfl,
    show ("/" : String).length = 1 from rfl]
  omega

theorem repo_ne_backup (r : String) : ("/holo/repo/" ++ r) ≠ ("/holo/backup/" ++ r) := by
  apply str_ne_of_length
  rw [String.length_append, String.length_append,
    show ("/holo/repo/" : String).length = 11 from rfl,
    show ("/holo/backup/" : String).length = 13 from rfl]
  omega

theorem pacnew_ne_backup (r : String) :
    (("/" ++ r) ++ ".pacnew") ≠ ("/holo/backup/" ++ r) := by
  apply str_ne_of_length
  rw [String.length_append, String.length_append, String.length_append,
    show ("/holo/backup/" : String).length = 13 from rfl,
    show ("/" : String).length = 1 from rfl,
    show (".pacnew" : String).length = 7 from rfl]
  omega

theorem target_ne_pacnew (r : String) : ("/" ++ r) ≠ (("/" ++ r) ++ ".pacnew") := by
  apply str_ne_of_length
  rw [String.length_append, String.length_append, String.length_append,
    show ("/" : String).length = 1 from rfl,
    show (".pacnew" : String).length = 7 from rfl]
  omega

theorem repo_ne_pacnew (r : String) :
    ("/holo/repo/" ++ r) ≠ (("/" ++ r) ++ ".pacnew") := by
  apply str_ne_of_length
  rw [String.length_append, String.length_append, String.length_append,
    show ("/holo/repo/" : String).length = 11 from rfl,
    show ("/" : String).length = 1 from rfl,
    show (".pacnew" : String).length = 7 from rfl]
  omega

theorem HoloApply.strategyOf_plain {rp : Path}
    (hns : strHasSuffix rp ".holoscript" = false) :
    HoloApply.strategyOf rp = HoloApply.Strategy.copy := by
  simp [HoloApply.strategyOf, hns]

theorem HoloApply.targetPathOf_plain (r : String)
    (hns : strHasSuffix ("/holo/repo/" ++ r) ".holoscript" = false) :
    HoloApply.targetPathOf ("/holo/repo/" ++ r) = "/" ++ r := by
  simp only [HoloApply.targetPathOf, HoloApply.repoBasePathOf, hns,
    Bool.false_eq_true, if_false]
  rw [HoloApply.repoRoot, show ("/holo/repo/" : String) = "/holo/repo" ++ "/" by decide,
    pathRel_under]
  simp [pathJoin]

theorem HoloApply.backupPathOf_plain (r : String)
    (hns : strHasSuffix ("/holo/repo/" ++ r) ".holoscript" = false) :
    HoloApply.backupPathOf ("/holo/repo/" ++ r) = "/holo/backup/" ++ r := by
  simp only [HoloApply.backupPathOf, HoloApply.repoBasePathOf, hns,
    Bool.false_eq_true, if_false]
  rw [HoloApply.repoRoot, show ("/holo/repo/" : String) = "/holo/repo" ++ "/" by decide,
    pathRel_under, HoloApply.backupRoot, pathJoin]
  rw [if_neg (by decide), show ("/holo/backup" ++ "/" : String) = "/holo/backup/" by decide]

/-! Master evaluation lemmas for `walkRepoBody` on the states the claims are
about, with the related paths abstracted (`tp` target, `bp` backup, `pp`
pacnew artifact) and the distinctness facts passed explicitly. -/

theorem HoloApply.isRegularFile_true {fs : FS} {p : Path} {c : List Nat} {m : Meta}
    (h : fs p = some (Node.regular c m)) : HoloApply.isRegularFile fs p = true := by
  simp [HoloApply.isRegularFile, OS.lstat, h, Node.isRegular]

theorem HoloApply.isRegularFile_none {fs : FS} {p : Path} (h : fs p = none) :
    HoloApply.isRegularFile fs p = false := by
  simp [HoloApply.isRegularFile, OS.lstat, h]

theorem HoloApply.isNewerThan_regular {fs : FS} {p1 p2 : Path}
    {c1 c2 : List Nat} {m1 m2 : Meta}
    (h1 : fs p1 = some (Node.regular c1 m1)) (h2 : fs p2 = some (Node.regular c2 m2)) :
    HoloApply.isNewerThan fs p1 p2 = Except.ok (decide (m2.mtime < m1.mtime)) := by
  simp [HoloApply.isNewerThan, OS.stat_regular h1, OS.stat_regular h2, Node.meta]

theorem HoloApply.walkRepoBody_tracked (env : Env) (fs : FS) (rp tp bp pp : Path)
    {tc rc : List Nat} {tm rm : Meta}
    (hns : strHasSuffix rp ".holoscript" = false)
    (htp : HoloApply.targetPathOf rp = tp)
    (hbp : HoloApply.backupPathOf rp = bp)
    (hpp : tp ++ ".pacnew" = pp)
    (hrt : rp ≠ tp)
    (ht : fs tp = some (Node.regular tc tm))
    (hr : fs rp = some (Node.regular rc rm))
    (hbb : HoloApply.isRegularFile fs bp = true)
    (hpn : HoloApply.isRegularFile fs pp = false) :
    HoloApply.walkRepoBody env fs rp =
      if rm.mtime < tm.mtime then
        Except.error (fs, [], "Skipping " ++ tp ++ ": has been modified by user")
      else
        Except.ok (FS.set fs tp (Node.regular rc rm),
          [HoloApply.Msg.mk HoloApply.msgInfo ("Installing " ++ tp)]) := by
  have hT := HoloApply.isRegularFile_true ht
  have hN := HoloApply.isNewerThan_regular ht hr
  by_cases hc : rm.mtime < tm.mtime
  · simp [HoloApply.walkRepoBody, htp, hbp, hpp, hT, hbb, hpn, hN,
      decide_eq_true hc, if_pos hc]
  · have hCopy := @HoloApply.copyFile_to_regular env _ _ _ _ _ _ _ hr ht hrt
    simp [HoloApply.walkRepoBody, htp, hbp, hpp, hT, hbb, hpn, hN,
      decide_eq_false hc, if_neg hc,
      HoloApply.strategyOf_plain hns, HoloApply.runStrategy, HoloApply.applyCopy,
      hCopy]

theorem HoloApply.walkRepoBody_first (env : Env) (fs : FS) (rp tp bp pp : Path)
    {tc rc : List Nat} {tm rm : Meta}
    (hns : strHasSuffix rp ".holoscript" = false)
    (htp : HoloApply.targetPathOf rp = tp)
    (hbp : HoloApply.backupPathOf rp = bp)
    (hpp : tp ++ ".pacnew" = pp)
    (hrt : rp ≠ tp) (htb : tp ≠ bp) (hrb : rp ≠ bp) (hpb : pp ≠ bp)
    (ht : fs tp = some (Node.regular tc tm))
    (hr : fs rp = some (Node.regular rc rm))
    (hb : fs bp = none)
    (hpn : HoloApply.isRegularFile fs pp = false) :
    HoloApply.walkRepoBody env fs rp =
      Except.ok ((FS.set fs bp (Node.regular tc tm)).set tp (Node.regular rc rm),
        [HoloApply.Msg.mk HoloApply.msgInfo ("Saving " ++ tp ++ " in /holo/backup"),
         HoloApply.Msg.mk HoloApply.msgInfo ("Installing " ++ tp)]) := by
  have hT := HoloApply.isRegularFile_true ht
  have hB := HoloApply.isRegularFile_none hb
  have hCopy1 := @HoloApply.copyFile_to_new env _ _ _ _ _ ht hb htb
  have hpn1 : HoloApply.isRegularFile (FS.set fs bp (Node.regular tc tm)) pp = false := by
    rw [HoloApply.isRegularFile, OS.lstat, FS.set_ne _ _ _ hpb]
    rw [HoloApply.isRegularFile, OS.lstat] at hpn
    exact hpn
  have hr1 : FS.set fs bp (Node.regular tc tm) rp = some (Node.regular rc rm) := by
    rw [FS.set_ne _ _ _ hrb]; exact hr
  have ht1 : FS.set fs bp (Node.regular tc tm) tp = some (Node.regular tc tm) := by
    rw [FS.set_ne _ _ _ htb]; exact ht
  have hCopy2 := @HoloApply.copyFile_to_regular env _ _ _ _ _ _ _ hr1 ht1 hrt
  simp [HoloApply.walkRepoBody, htp, hbp, hpp, hT, hB, hCopy1, hpn1,
    HoloApply.strategyOf_plain hns, HoloApply.runStrategy, HoloApply.applyCopy,
    hCopy2]

theorem HoloApply.walkRepoBody_absorb (env : Env) (fs : FS) (rp tp bp pp : Path)
    {tc rc bc pc : List Nat} {tm rm bm pm : Meta}
    (htp : HoloApply.targetPathOf rp = tp)
    (hbp : HoloApply.backupPathOf rp = bp)
    (hpp : tp ++ ".pacnew" = pp)
    (htb : tp ≠ bp) (hrb : rp ≠ bp) (hpb : pp ≠ bp)
    (htw : tp ≠ pp) (hrw : rp ≠ pp)
    (ht : fs tp = some (Node.regular tc tm))
    (hr : fs rp = some (Node.regular rc rm))
    (hb : fs bp = some (Node.regular bc bm))
    (hpn : fs pp = some (Node.regular pc pm))
    (hlt : rm.mtime < tm.mtime) :
    HoloApply.walkRepoBody env fs rp =
      Except.error
        ((if env.removeFails pp then FS.set fs bp (Node.regular pc pm)
          else (FS.set fs bp (Node.regular pc pm)).del pp),
         [HoloApply.Msg.mk HoloApply.msgInfo ("Saving " ++ pp ++ " in /holo/backup")],
         "Skipping " ++ tp ++ ": has been modified by user") := by
  have hT := HoloApply.isRegularFile_true ht
  have hB := HoloApply.isRegularFile_true hb
  have hP := HoloApply.isRegularFile_true hpn
  have hCopy := @HoloApply.copyFile_to_regular env _ _ _ _ _ _ _ hpn hb hpb
  have hpn1 : FS.set fs bp (Node.regular pc pm) pp = some (Node.regular pc pm) := by
    rw [FS.set_ne _ _ _ hpb]; exact hpn
  have ht1 : FS.set fs bp (Node.regular pc pm) tp = some (Node.regular tc tm) := by
    rw [FS.set_ne _ _ _ htb]; exact ht
  have hr1 : FS.set fs bp (Node.regular pc pm) rp = some (Node.regular rc rm) := by
    rw [FS.set_ne _ _ _ hrb]; exact hr
  by_cases hrf : env.removeFails pp
  · have hRem := @OS.remove_fails env (FS.set fs bp (Node.regular pc pm)) pp hrf
    have hN := HoloApply.isNewerThan_regular ht1 hr1
    simp [HoloApply.walkRepoBody, htp, hbp, hpp, hT, hB, hP, hCopy, hRem, hN,
      decide_eq_true hlt, if_pos hrf]
  · have hrf' : env.removeFails pp = false := by simpa using hrf
    have hRem := OS.remove_ok hrf' hpn1
    have ht2 : (FS.set fs bp (Node.regular pc pm)).del pp tp = some (Node.regular tc tm) := by
      rw [FS.del_ne _ _ htw]; exact ht1
    have hr2 : (FS.set fs bp (Node.regular pc pm)).del pp rp = some (Node.regular rc rm) := by
      rw [FS.del_ne _ _ hrw]; exact hr1
    have hN := HoloApply.isNewerThan_regular ht2 hr2
    simp [HoloApply.walkRepoBody, htp, hbp, hpp, hT, hB, hP, hCopy, hRem, hN,
      decide_eq_true hlt, if_neg hrf]

/-- Running `walkRepo` on a regular repository file whose body succeeds. -/
theorem HoloApply.walkRepo_ok {env : Env} {fs : FS} {rp : Path}
    {rc : List Nat} {rm : Meta} {fs1 : FS} {msgs : List HoloApply.Msg}
    (hr : fs rp = some (Node.regular rc rm))
    (hbody : HoloApply.walkRepoBody env fs rp = Except.ok (fs1, msgs)) :
    HoloApply.walkRepo env fs rp none = HoloApply.Outcome.mk fs1 msgs none := by
  simp [HoloApply.walkRepo, hr, hbody]

/-- Running `walkRepo` on a regular repository file whose body panics: the
deferred `recover` reports the panic and returns `nil` to the walk. -/
theorem HoloApply.walkRepo_panic {env : Env} {fs : FS} {rp : Path}
    {rc : List Nat} {rm : Meta} {fs1 : FS} {msgs : List HoloApply.Msg} {m : String}
    (hr : fs rp = some (Node.regular rc rm))
    (hbody : HoloApply.walkRepoBody env fs rp = Except.error (fs1, msgs, m)) :
    HoloApply.walkRepo env fs rp none =
      HoloApply.Outcome.mk fs1 (msgs ++ [HoloApply.Msg.mk HoloApply.msgError m]) none := by
  simp [HoloApply.walkRepo, hr, hbody]

/-! Evaluation lemmas for the shared layer's `CopyFile` with a regular
source, and supporting facts about `IsManageableFile` and `remove`. -/

theorem Common.CopyFile_regular_to_regular {env : Env} {fs : FS} {fromP toP : Path}
    {cf ct : List Nat} {mf mt : Meta}
    (hf : fs fromP = some (Node.regular cf mf))
    (ht : fs toP = some (Node.regular ct mt))
    (hne : fromP ≠ toP) :
    Common.CopyFile env fs fromP toP =
      Except.ok (FS.set fs toP (Node.regular cf mf)) := by
  have h1 := OS.readFile_regular hf
  have h2 := @OS.writeFile_regular env _ _ _ _ cf 384 ht
  have hf1 : FS.set fs toP (Node.regular cf { mt with mtime := env.now }) fromP =
      some (Node.regular cf mf) := by rw [FS.set_ne _ _ _ hne]; exact hf
  have h4 := @OS.chmod_regular (FS.set fs toP (Node.regular cf { mt with mtime := env.now }))
    _ _ _ mf.mode (FS.set_self ..)
  rw [FS.set_set] at h4
  have h5 := @OS.chown_regular
    (FS.set fs toP (Node.regular cf
      { mode := mf.mode, uid := mt.uid, gid := mt.gid, mtime := env.now }))
    _ _ _ mf.uid mf.gid (FS.set_self ..)
  rw [FS.set_set] at h5
  have h6 := @OS.chtimes_regular
    (FS.set fs toP (Node.regular cf
      { mode := mf.mode, uid := mf.uid, gid := mf.gid, mtime := env.now }))
    _ _ _ mf.mtime (FS.set_self ..)
  rw [FS.set_set] at h6
  simp [Common.CopyFile, Common.copyFileImpl, Common.ApplyFilePermissions,
    Common.IsFileInfoASymbolicLink, OS.lstat, hf, Node.isRegular, Node.meta,
    h1, h2, hf1, h4, h5, h6, FS.set_self]

theorem Common.CopyFile_regular_to_new {env : Env} {fs : FS} {fromP toP : Path}
    {cf : List Nat} {mf : Meta}
    (hf : fs fromP = some (Node.regular cf mf))
    (ht : fs toP = none)
    (hne : fromP ≠ toP) :
    Common.CopyFile env fs fromP toP =
      Except.ok (FS.set fs toP (Node.regular cf mf)) := by
  have h1 := OS.readFile_regular hf
  have h2 := @OS.writeFile_new env _ _ cf 384 ht
  have hf1 : FS.set fs toP (Node.regular cf
      { mode := 384, uid := env.uid, gid := env.gid, mtime := env.now }) fromP =
      some (Node.regular cf mf) := by rw [FS.set_ne _ _ _ hne]; exact hf
  have h4 := @OS.chmod_regular (FS.set fs toP (Node.regular cf
      { mode := 384, uid := env.uid, gid := env.gid, mtime := env.now }))
    _ _ _ mf.mode (FS.set_self ..)
  rw [FS.set_set] at h4
  have h5 := @OS.chown_regular (FS.set fs toP (Node.regular cf
      { mode := mf.mode, uid := env.uid, gid := env.gid, mtime := env.now }))
    _ _ _ mf.uid mf.gid (FS.set_self ..)
  rw [FS.set_set] at h5
  have h6 := @OS.chtimes_regular (FS.set fs toP (Node.regular cf
      { mode := mf.mode, uid := mf.uid, gid := mf.gid, mtime := env.now }))
    _ _ _ mf.mtime (FS.set_self ..)
  rw [FS.set_set] at h6
  simp [Common.CopyFile, Common.copyFileImpl, Common.ApplyFilePermissions,
    Common.IsFileInfoASymbolicLink, OS.lstat, hf, Node.isRegular, Node.meta,
    h1, h2, hf1, h4, h5, h6, FS.set_self]

theorem OS.remove_manageable {env : Env} {fs : FS} {p : Path}
    (hrf : env.removeFails p = false)
    (h : Common.IsManageableFile fs p = true) :
    OS.remove env fs p = some (FS.del fs p) := by
  rw [Common.IsManageableFile, OS.lstat] at h
  cases hn : fs p with
  | none => rw [hn] at h; simp at h
  | some n =>
    cases n with
    | regular c m => simp [OS.remove, hrf, hn]
    | symlink t m => simp [OS.remove, hrf, hn]
    | dir m =>
        rw [hn] at h
        simp [Node.isRegular, Common.IsFileInfoASymbolicLink] at h
    | other m =>
        rw [hn] at h
        simp [Node.isRegular, Common.IsFileInfoASymbolicLink] at h

/-! The claims. -/

/-- C1: for every tracked target — backup present, live target regular, no
package-manager artifact — whose live file was modified after the engine's
last write (a newer mtime than the repository file's, the mtime every engine
write copies onto the target), apply leaves the filesystem entirely
unchanged (target content and metadata, backup, everything else), reports
the target as user-modified, and does not write the repository content.
The early tool has no force flag, so every run is a run without force. -/
theorem claim_C1 (env : Env) (fs : FS) (r : String)
    (tc rc bc : List Nat) (tm rm bm : Meta)
    (hns : strHasSuffix ("/holo/repo/" ++ r) ".holoscript" = false)
    (ht : fs ("/" ++ r) = some (Node.regular tc tm))
    (hr : fs ("/holo/repo/" ++ r) = some (Node.regular rc rm))
    (hb : fs ("/holo/backup/" ++ r) = some (Node.regular bc bm))
    (hp : fs (("/" ++ r) ++ ".pacnew") = none)
    (hmod : rm.mtime < tm.mtime) :
    HoloApply.walkRepo env fs ("/holo/repo/" ++ r) none =
      HoloApply.Outcome.mk fs
        [HoloApply.Msg.mk HoloApply.msgError
          ("Skipping " ++ ("/" ++ r) ++ ": has been modified by user")] none := by
  have hbody := HoloApply.walkRepoBody_tracked env fs ("/holo/repo/" ++ r)
    ("/" ++ r) ("/holo/backup/" ++ r) (("/" ++ r) ++ ".pacnew") hns
    (HoloApply.targetPathOf_plain r hns) (HoloApply.backupPathOf_plain r hns) rfl
    (repo_ne_target r) ht hr (HoloApply.isRegularFile_true hb)
    (HoloApply.isRegularFile_none hp)
  rw [if_pos hmod] at hbody
  exact HoloApply.walkRepo_panic hr hbody

theorem claim_C1_witness :
    strHasSuffix ("/holo/repo/" ++ "etc/app.conf") ".holoscript" = false ∧
    fsW1 ("/" ++ "etc/app.conf") = some (Node.regular [67] (metaW 20)) ∧
    fsW1 ("/holo/repo/" ++ "etc/app.conf") = some (Node.regular [66] (metaW 10)) ∧
    fsW1 ("/holo/backup/" ++ "etc/app.conf") = some (Node.regular [65] (metaW 5)) ∧
    fsW1 (("/" ++ "etc/app.conf") ++ ".pacnew") = none ∧
    (metaW 10).mtime < (metaW 20).mtime ∧
    HoloApply.walkRepo envW fsW1 ("/holo/repo/" ++ "etc/app.conf") none =
      HoloApply.Outcome.mk fsW1
        [HoloApply.Msg.mk HoloApply.msgError
          ("Skipping " ++ ("/" ++ "etc/app.conf") ++ ": has been modified by user")] none :=
  ⟨by decide, by decide, by decide, by decide, by decide, by decide,
   claim_C1 envW fsW1 "etc/app.conf" [67] [66] [65] (metaW 20) (metaW 10) (metaW 5)
     (by decide) (by decide) (by decide) (by decide) (by decide) (by decide)⟩

/-- C3: for a target encountered for the first time (no backup entry exists
at its backup path, no artifact), apply creates exactly one backup, whose
content, mode, owner, group and mtime equal the pre-apply target's, and then
proceeds to install the repository content — for all metadata whatsoever, so
in particular no user-modification comparison takes place (the messages show
a save and an install and never a user-modified report). -/
theorem claim_C3 (env : Env) (fs : FS) (r : String)
    (tc rc : List Nat) (tm rm : Meta)
    (hns : strHasSuffix ("/holo/repo/" ++ r) ".holoscript" = false)
    (ht : fs ("/" ++ r) = some (Node.regular tc tm))
    (hr : fs ("/holo/repo/" ++ r) = some (Node.regular rc rm))
    (hb : fs ("/holo/backup/" ++ r) = none)
    (hp : fs (("/" ++ r) ++ ".pacnew") = none) :
    HoloApply.walkRepo env fs ("/holo/repo/" ++ r) none =
      HoloApply.Outcome.mk
        ((FS.set fs ("/holo/backup/" ++ r) (Node.regular tc tm)).set ("/" ++ r)
          (Node.regular rc rm))
        [HoloApply.Msg.mk HoloApply.msgInfo
          ("Saving " ++ ("/" ++ r) ++ " in /holo/backup"),
         HoloApply.Msg.mk HoloApply.msgInfo ("Installing " ++ ("/" ++ r))] none := by
  have hbody := HoloApply.walkRepoBody_first env fs ("/holo/repo/" ++ r)
    ("/" ++ r) ("/holo/backup/" ++ r) (("/" ++ r) ++ ".pacnew") hns
    (HoloApply.targetPathOf_plain r hns) (HoloApply.backupPathOf_plain r hns) rfl
    (repo_ne_target r) (target_ne_backup r) (repo_ne_backup r) (pacnew_ne_backup r)
    ht hr hb (HoloApply.isRegularFile_none hp)
  exact HoloApply.walkRepo_ok hr hbody

theorem claim_C3_witness :
    strHasSuffix ("/holo/repo/" ++ "etc/app.conf") ".holoscript" = false ∧
    fsW3 ("/" ++ "etc/app.conf") = some (Node.regular [65] (metaW 5)) ∧
    fsW3 ("/holo/repo/" ++ "etc/app.conf") = some (Node.regular [66] (metaW 10)) ∧
    fsW3 ("/holo/backup/" ++ "etc/app.conf") = none ∧
    fsW3 (("/" ++ "etc/app.conf") ++ ".pacnew") = none ∧
    HoloApply.walkRepo envW fsW3 ("/holo/repo/" ++ "etc/app.conf") none =
      HoloApply.Outcome.mk
        ((FS.set fsW3 ("/holo/backup/" ++ "etc/app.conf")
            (Node.regular [65] (metaW 5))).set ("/" ++ "etc/app.conf")
          (Node.regular [66] (metaW 10)))
        [HoloApply.Msg.mk HoloApply.msgInfo
          ("Saving " ++ ("/" ++ "etc/app.conf") ++ " in /holo/backup"),
         HoloApply.Msg.mk HoloApply.msgInfo
          ("Installing " ++ ("/" ++ "etc/app.conf"))] none :=
  ⟨by decide, by decide, by decide, by decide, by decide,
   claim_C3 envW fsW3 "etc/app.conf" [65] [66] (metaW 5) (metaW 10)
     (by decide) (by decide) (by decide) (by decide) (by decide)⟩

/-- C4, counterexample: the user-modification decision is not a comparison
against the backup's mtime.  In `fsC4` the live target (mtime 5) is strictly
newer than its backup (mtime 0), so the claim as stated judges it modified
and predicts a user-modified report with no overwrite; the code instead
compares against the repository file (mtime 10), judges the target
unmodified, and overwrites it. -/
theorem claim_C4_cex :
    fsC4 "/etc/app.conf" = some (Node.regular [67] (metaW 5)) ∧
    fsC4 "/holo/backup/etc/app.conf" = some (Node.regular [65] (metaW 0)) ∧
    (metaW 0).mtime < (metaW 5).mtime ∧
    (HoloApply.walkRepo envW fsC4 "/holo/repo/etc/app.conf" none).msgs =
      [HoloApply.Msg.mk HoloApply.msgInfo "Installing /etc/app.conf"] ∧
    (HoloApply.walkRepo envW fsC4 "/holo/repo/etc/app.conf" none).fs "/etc/app.conf" =
      some (Node.regular [66] (metaW 10)) := by
  refine ⟨by decide, by decide, by decide, by decide, by decide⟩

/-- C4, amended: the user-modification decision for a tracked target is a
pure mtime comparison (a metadata read, no content hashing), but against the
repository file's mtime, not the backup's: the target is judged modified —
and apply stops with a user-modified report — exactly when the target's
mtime is strictly newer than the repository file's, and otherwise apply
overwrites the target; the backup's metadata plays no role (the conclusion
holds for every backup meta `bm`).  The comparison is sound because each
engine write copies the repository file's mtime onto the target. -/
theorem claim_C4 (env : Env) (fs : FS) (r : String)
    (tc rc bc : List Nat) (tm rm bm : Meta)
    (hns : strHasSuffix ("/holo/repo/" ++ r) ".holoscript" = false)
    (ht : fs ("/" ++ r) = some (Node.regular tc tm))
    (hr : fs ("/holo/repo/" ++ r) = some (Node.regular rc rm))
    (hb : fs ("/holo/backup/" ++ r) = some (Node.regular bc bm))
    (hp : fs (("/" ++ r) ++ ".pacnew") = none) :
    HoloApply.walkRepo env fs ("/holo/repo/" ++ r) none =
      (if rm.mtime < tm.mtime then
        HoloApply.Outcome.mk fs
          [HoloApply.Msg.mk HoloApply.msgError
            ("Skipping " ++ ("/" ++ r) ++ ": has been modified by user")] none
       else
        HoloApply.Outcome.mk (FS.set fs ("/" ++ r) (Node.regular rc rm))
          [HoloApply.Msg.mk HoloApply.msgInfo ("Installing " ++ ("/" ++ r))] none) := by
  have hbody := HoloApply.walkRepoBody_tracked env fs ("/holo/repo/" ++ r)
    ("/" ++ r) ("/holo/backup/" ++ r) (("/" ++ r) ++ ".pacnew") hns
    (HoloApply.targetPathOf_plain r hns) (HoloApply.backupPathOf_plain r hns) rfl
    (repo_ne_target r) ht hr (HoloApply.isRegularFile_true hb)
    (HoloApply.isRegularFile_none hp)
  by_cases hc : rm.mtime < tm.mtime
  · rw [if_pos hc] at hbody
    rw [if_pos hc]
    exact HoloApply.walkRepo_panic hr hbody
  · rw [if_neg hc] at hbody
    rw [if_neg hc]
    exact HoloApply.walkRepo_ok hr hbody

theorem claim_C4_witness :
    strHasSuffix ("/holo/repo/" ++ "etc/app.conf") ".holoscript" = false ∧
    fsC4 ("/" ++ "etc/app.conf") = some (Node.regular [67] (metaW 5)) ∧
    fsC4 ("/holo/repo/" ++ "etc/app.conf") = some (Node.regular [66] (metaW 10)) ∧
    fsC4 ("/holo/backup/" ++ "etc/app.conf") = some (Node.regular [65] (metaW 0)) ∧
    fsC4 (("/" ++ "etc/app.conf") ++ ".pacnew") = none ∧
    HoloApply.walkRepo envW fsC4 ("/holo/repo/" ++ "etc/app.conf") none =
      (if (metaW 10).mtime < (metaW 5).mtime then
        HoloApply.Outcome.mk fsC4
          [HoloApply.Msg.mk HoloApply.msgError
            ("Skipping " ++ ("/" ++ "etc/app.conf") ++ ": has been modified by user")] none
       else
        HoloApply.Outcome.mk
          (FS.set fsC4 ("/" ++ "etc/app.conf") (Node.regular [66] (metaW 10)))
          [HoloApply.Msg.mk HoloApply.msgInfo
            ("Installing " ++ ("/" ++ "etc/app.conf"))] none) :=
  ⟨by decide, by decide, by decide, by decide, by decide,
   claim_C4 envW fsC4 "etc/app.conf" [67] [66] [65] (metaW 5) (metaW 10) (metaW 0)
     (by decide) (by decide) (by decide) (by decide) (by decide)⟩

/-- C2, counterexample: a failure to delete the absorbed artifact is not
logged.  With removal of `/etc/app.conf.pacnew` failing environmentally, the
run's messages name only the absorption save and the subsequent skip — no
line mentions the failed deletion — while the artifact provably survives in
the live tree.  (The code discards the `os.Remove` error: `_ =
os.Remove(pacnewPath)`, commented "this can fail silently".) -/
theorem claim_C2_cex :
    envRF.removeFails "/etc/app.conf.pacnew" = true ∧
    (HoloApply.walkRepo envRF fsW2 "/holo/repo/etc/app.conf" none).msgs =
      [HoloApply.Msg.mk HoloApply.msgInfo "Saving /etc/app.conf.pacnew in /holo/backup",
       HoloApply.Msg.mk HoloApply.msgError "Skipping /etc/app.conf: has been modified by user"] ∧
    (HoloApply.walkRepo envRF fsW2 "/holo/repo/etc/app.conf" none).fs "/etc/app.conf.pacnew" =
      some (Node.regular [68] (metaW 30)) ∧
    (HoloApply.walkRepo envRF fsW2 "/holo/repo/etc/app.conf" none).result = none := by
  refine ⟨by decide, by decide, by decide, by decide⟩

/-- C2, amended: for a tracked target with a `.pacnew` artifact present at
apply time, absorption runs before the integrity comparison: the artifact's
content and metadata are copied into the backup position, overwriting the
previous backup, and the artifact is deleted from the live tree; a failure
of that deletion is silently ignored (not logged) and does not abort
processing of the target.  The conclusion holds for either value of the
removal-failure flag, and the subsequent integrity comparison still runs —
here it reports the target as user-modified, demonstrating that the backup
was rewritten and the artifact removed even though the target itself was
left alone. -/
theorem claim_C2 (env : Env) (fs : FS) (r : String)
    (tc rc bc pc : List Nat) (tm rm bm pm : Meta)
    (hns : strHasSuffix ("/holo/repo/" ++ r) ".holoscript" = false)
    (ht : fs ("/" ++ r) = some (Node.regular tc tm))
    (hr : fs ("/holo/repo/" ++ r) = some (Node.regular rc rm))
    (hb : fs ("/holo/backup/" ++ r) = some (Node.regular bc bm))
    (hpn : fs (("/" ++ r) ++ ".pacnew") = some (Node.regular pc pm))
    (hmod : rm.mtime < tm.mtime) :
    HoloApply.walkRepo env fs ("/holo/repo/" ++ r) none =
      HoloApply.Outcome.mk
        (if env.removeFails (("/" ++ r) ++ ".pacnew") then
          FS.set fs ("/holo/backup/" ++ r) (Node.regular pc pm)
         else
          (FS.set fs ("/holo/backup/" ++ r) (Node.regular pc pm)).del
            (("/" ++ r) ++ ".pacnew"))
        [HoloApply.Msg.mk HoloApply.msgInfo
          ("Saving " ++ (("/" ++ r) ++ ".pacnew") ++ " in /holo/backup"),
         HoloApply.Msg.mk HoloApply.msgError
          ("Skipping " ++ ("/" ++ r) ++ ": has been modified by user")] none := by
  have hbody := HoloApply.walkRepoBody_absorb env fs ("/holo/repo/" ++ r)
    ("/" ++ r) ("/holo/backup/" ++ r) (("/" ++ r) ++ ".pacnew")
    (HoloApply.targetPathOf_plain r hns) (HoloApply.backupPathOf_plain r hns) rfl
    (target_ne_backup r) (repo_ne_backup r) (pacnew_ne_backup r)
    (target_ne_pacnew r) (repo_ne_pacnew r)
    ht hr hb hpn hmod
  exact HoloApply.walkRepo_panic hr hbody

theorem claim_C2_witness :
    strHasSuffix ("/holo/repo/" ++ "etc/app.conf") ".holoscript" = false ∧
    fsW2 ("/" ++ "etc/app.conf") = some (Node.regular [67] (metaW 20)) ∧
    fsW2 ("/holo/repo/" ++ "etc/app.conf") = some (Node.regular [66] (metaW 10)) ∧
    fsW2 ("/holo/backup/" ++ "etc/app.conf") = some (Node.regular [65] (metaW 5)) ∧
    fsW2 (("/" ++ "etc/app.conf") ++ ".pacnew") = some (Node.regular [68] (metaW 30)) ∧
    (metaW 10).mtime < (metaW 20).mtime ∧
    HoloApply.walkRepo envW fsW2 ("/holo/repo/" ++ "etc/app.conf") none =
      HoloApply.Outcome.mk
        (if envW.removeFails (("/" ++ "etc/app.conf") ++ ".pacnew") then
          FS.set fsW2 ("/holo/backup/" ++ "etc/app.conf") (Node.regular [68] (metaW 30))
         else
          (FS.set fsW2 ("/holo/backup/" ++ "etc/app.conf")
            (Node.regular [68] (metaW 30))).del (("/" ++ "etc/app.conf") ++ ".pacnew"))
        [HoloApply.Msg.mk HoloApply.msgInfo
          ("Saving " ++ (("/" ++ "etc/app.conf") ++ ".pacnew") ++ " in /holo/backup"),
         HoloApply.Msg.mk HoloApply.msgError
          ("Skipping " ++ ("/" ++ "etc/app.conf") ++ ": has been modified by user")] none :=
  ⟨by decide, by decide, by decide, by decide, by decide, by decide,
   claim_C2 envW fsW2 "etc/app.conf" [67] [66] [65] [68]
     (metaW 20) (metaW 10) (metaW 5) (metaW 30)
     (by decide) (by decide) (by decide) (by decide) (by decide) (by decide)⟩

/-- C9: the newer-than comparison is strict, in both the shared layer's
`IsNewerThan` and the apply tool's `isNewerThan`: for two existing regular
files the result is exactly `ok (mtime2 < mtime1)`, so equal mtimes (the
state every engine write re-establishes) and older first arguments yield
`ok false`; and in that clean state apply proceeds to overwrite the target
(second conjunct, with the target's mtime equal to the repository file's). -/
theorem claim_C9 :
    (∀ (fs : FS) (a b : Path) (ca cb : List Nat) (ma mb : Meta),
      fs a = some (Node.regular ca ma) → fs b = some (Node.regular cb mb) →
      Common.IsNewerThan fs a b = Except.ok (decide (mb.mtime < ma.mtime)) ∧
      HoloApply.isNewerThan fs a b = Except.ok (decide (mb.mtime < ma.mtime)) ∧
      (ma.mtime = mb.mtime →
        Common.IsNewerThan fs a b = Except.ok false ∧
        HoloApply.isNewerThan fs a b = Except.ok false)) ∧
    (∀ (env : Env) (fs : FS) (r : String) (tc rc bc : List Nat) (tm rm bm : Meta),
      strHasSuffix ("/holo/repo/" ++ r) ".holoscript" = false →
      fs ("/" ++ r) = some (Node.regular tc tm) →
      fs ("/holo/repo/" ++ r) = some (Node.regular rc rm) →
      fs ("/holo/backup/" ++ r) = some (Node.regular bc bm) →
      fs (("/" ++ r) ++ ".pacnew") = none →
      tm.mtime = rm.mtime →
      HoloApply.walkRepo env fs ("/holo/repo/" ++ r) none =
        HoloApply.Outcome.mk (FS.set fs ("/" ++ r) (Node.regular rc rm))
          [HoloApply.Msg.mk HoloApply.msgInfo ("Installing " ++ ("/" ++ r))] none) := by
  constructor
  · intro fs a b ca cb ma mb ha hb
    have hC : Common.IsNewerThan fs a b = Except.ok (decide (mb.mtime < ma.mtime)) := by
      simp [Common.IsNewerThan, OS.lstat, ha, hb, Common.IsFileInfoASymbolicLink,
        Node.meta]
    have hH := HoloApply.isNewerThan_regular ha hb
    refine ⟨hC, hH, fun heq => ?_⟩
    rw [hC, hH, heq, decide_eq_false (lt_irrefl mb.mtime)]
    exact ⟨rfl, rfl⟩
  · intro env fs r tc rc bc tm rm bm hns ht hr hb hp heq
    have hres := claim_C4 env fs r tc rc bc tm rm bm hns ht hr hb hp
    rw [if_neg (by rw [heq]; exact lt_irrefl rm.mtime)] at hres
    exact hres

theorem claim_C9_witness :
    fsW9 "/etc/app.conf" = some (Node.regular [66] (metaW 10)) ∧
    fsW9 "/holo/repo/etc/app.conf" = some (Node.regular [66] (metaW 10)) ∧
    Common.IsNewerThan fsW9 "/etc/app.conf" "/holo/repo/etc/app.conf" = Except.ok false ∧
    HoloApply.isNewerThan fsW9 "/etc/app.conf" "/holo/repo/etc/app.conf" = Except.ok false ∧
    HoloApply.walkRepo envW fsW9 ("/holo/repo/" ++ "etc/app.conf") none =
      HoloApply.Outcome.mk
        (FS.set fsW9 ("/" ++ "etc/app.conf") (Node.regular [66] (metaW 10)))
        [HoloApply.Msg.mk HoloApply.msgInfo
          ("Installing " ++ ("/" ++ "etc/app.conf"))] none :=
  ⟨by decide, by decide,
   ((claim_C9.1 fsW9 "/etc/app.conf" "/holo/repo/etc/app.conf" [66] [66]
      (metaW 10) (metaW 10) (by decide) (by decide)).2.2 (by decide)).1,
   ((claim_C9.1 fsW9 "/etc/app.conf" "/holo/repo/etc/app.conf" [66] [66]
      (metaW 10) (metaW 10) (by decide) (by decide)).2.2 (by decide)).2,
   claim_C9.2 envW fsW9 "etc/app.conf" [66] [66] [65]
     (metaW 10) (metaW 10) (metaW 5)
     (by decide) (by decide) (by decide) (by decide) (by decide) (by decide)⟩

/-- C6: per-entry failure isolation.  First conjunct: for every environment,
filesystem and repository path, `walkRepo` returns `nil` to `filepath.Walk`
(the deferred `recover` catches every panic), so no entry's failure ever
aborts the batch — the walk continues with the next repository entry.
Second conjunct: when the target position is not a regular file, the entry
is reported with a single error message and the filesystem is left exactly
as found.  Third conjunct: when the backup copy fails (a directory occupies
the backup position, so the write fails), the entry is reported and the
filesystem — in particular the target — is again left exactly as found. -/
theorem claim_C6 :
    (∀ (env : Env) (fs : FS) (rp : Path),
      (HoloApply.walkRepo env fs rp none).result = none) ∧
    (∀ (env : Env) (fs : FS) (r : String) (rc : List Nat) (rm : Meta),
      strHasSuffix ("/holo/repo/" ++ r) ".holoscript" = false →
      fs ("/holo/repo/" ++ r) = some (Node.regular rc rm) →
      HoloApply.isRegularFile fs ("/" ++ r) = false →
      HoloApply.walkRepo env fs ("/holo/repo/" ++ r) none =
        HoloApply.Outcome.mk fs
          [HoloApply.Msg.mk HoloApply.msgError
            (("/" ++ r) ++ " is not a regular file")] none) ∧
    (∀ (env : Env) (fs : FS) (r : String) (tc rc : List Nat) (tm rm dm : Meta),
      strHasSuffix ("/holo/repo/" ++ r) ".holoscript" = false →
      fs ("/" ++ r) = some (Node.regular tc tm) →
      fs ("/holo/repo/" ++ r) = some (Node.regular rc rm) →
      fs ("/holo/backup/" ++ r) = some (Node.dir dm) →
      HoloApply.walkRepo env fs ("/holo/repo/" ++ r) none =
        HoloApply.Outcome.mk fs
          [HoloApply.Msg.mk HoloApply.msgInfo
            ("Saving " ++ ("/" ++ r) ++ " in /holo/backup"),
           HoloApply.Msg.mk HoloApply.msgError
            ("Cannot copy " ++ ("/" ++ r) ++ " to " ++ ("/holo/backup/" ++ r) ++
              ": write failed")] none) := by
  refine ⟨?_, ?_, ?_⟩
  · intro env fs rp
    cases hrp : fs rp with
    | none => simp [HoloApply.walkRepo, hrp]
    | some n =>
      cases n with
      | regular c m =>
        cases hbody : HoloApply.walkRepoBody env fs rp with
        | ok x =>
          obtain ⟨fs1, msgs⟩ := x
          simp [HoloApply.walkRepo, hrp, hbody]
        | error e =>
          obtain ⟨fs1, msgs, m1⟩ := e
          simp [HoloApply.walkRepo, hrp, hbody]
      | symlink t m => simp [HoloApply.walkRepo, hrp]
      | dir m => simp [HoloApply.walkRepo, hrp]
      | other m => simp [HoloApply.walkRepo, hrp]
  · intro env fs r rc rm hns hr hreg
    have hbody : HoloApply.walkRepoBody env fs ("/holo/repo/" ++ r) =
        Except.error (fs, [], ("/" ++ r) ++ " is not a regular file") := by
      simp [HoloApply.walkRepoBody, HoloApply.targetPathOf_plain r hns, hreg]
    exact HoloApply.walkRepo_panic hr hbody
  · intro env fs r tc rc tm rm dm hns ht hr hbd
    have hT := HoloApply.isRegularFile_true ht
    have hB : HoloApply.isRegularFile fs ("/holo/backup/" ++ r) = false := by
      simp [HoloApply.isRegularFile, OS.lstat, hbd, Node.isRegular]
    have hCopy := @HoloApply.copyFile_to_dir env _ _ _ _ _ _ ht hbd
    have hbody : HoloApply.walkRepoBody env fs ("/holo/repo/" ++ r) =
        Except.error (fs,
          [HoloApply.Msg.mk HoloApply.msgInfo
            ("Saving " ++ ("/" ++ r) ++ " in /holo/backup")],
          "Cannot copy " ++ ("/" ++ r) ++ " to " ++ ("/holo/backup/" ++ r) ++
            ": write failed") := by
      simp [HoloApply.walkRepoBody, HoloApply.targetPathOf_plain r hns,
        HoloApply.backupPathOf_plain r hns, hT, hB, hCopy]
    exact HoloApply.walkRepo_panic hr hbody

theorem claim_C6_witness :
    (HoloApply.walkRepo envW fsW1 "/holo/repo/etc/app.conf" none).result = none ∧
    (strHasSuffix ("/holo/repo/" ++ "etc/app.conf") ".holoscript" = false ∧
     fsW6b ("/holo/repo/" ++ "etc/app.conf") = some (Node.regular [66] (metaW 10)) ∧
     HoloApply.isRegularFile fsW6b ("/" ++ "etc/app.conf") = false ∧
     HoloApply.walkRepo envW fsW6b ("/holo/repo/" ++ "etc/app.conf") none =
       HoloApply.Outcome.mk fsW6b
         [HoloApply.Msg.mk HoloApply.msgError
           (("/" ++ "etc/app.conf") ++ " is not a regular file")] none) ∧
    (fsW6c ("/holo/backup/" ++ "etc/app.conf") = some (Node.dir (metaW 1)) ∧
     HoloApply.walkRepo envW fsW6c ("/holo/repo/" ++ "etc/app.conf") none =
       HoloApply.Outcome.mk fsW6c
         [HoloApply.Msg.mk HoloApply.msgInfo
           ("Saving " ++ ("/" ++ "etc/app.conf") ++ " in /holo/backup"),
          HoloApply.Msg.mk HoloApply.msgError
           ("Cannot copy " ++ ("/" ++ "etc/app.conf") ++ " to " ++
             ("/holo/backup/" ++ "etc/app.conf") ++ ": write failed")] none) :=
  ⟨claim_C6.1 envW fsW1 "/holo/repo/etc/app.conf",
   ⟨by decide, by decide, by decide,
    claim_C6.2.1 envW fsW6b "etc/app.conf" [66] (metaW 10)
      (by decide) (by decide) (by decide)⟩,
   ⟨by decide,
    claim_C6.2.2 envW fsW6c "etc/app.conf" [65] [66] (metaW 5) (metaW 10) (metaW 1)
      (by decide) (by decide) (by decide) (by decide)⟩⟩

/-- Helper for C7: the repository-relative path of a repository file sitting
directly under the repository root. -/
theorem pathRel_repoRoot (r : String) :
    pathRel HoloApply.repoRoot ("/holo/repo/" ++ r) = r := by
  rw [HoloApply.repoRoot, show ("/holo/repo/" : String) = "/holo/repo" ++ "/" by decide,
    pathRel_under]

/-- C7: for a regular file under the repository root, application strategy
and target path are a pure function of the repository path.  A path ending
in ".holoscript" yields the external-program strategy with the suffix
stripped to obtain the repository-relative target path; any other path
yields the copy strategy with the path unchanged; in both cases the absolute
target path is the repository-relative path rooted at "/". -/
theorem claim_C7 (r : String) :
    (HoloApply.strategyOf (("/holo/repo/" ++ r) ++ ".holoscript") =
        HoloApply.Strategy.externalProgram ∧
     HoloApply.repoBasePathOf (("/holo/repo/" ++ r) ++ ".holoscript") =
        "/holo/repo/" ++ r ∧
     HoloApply.targetPathOf (("/holo/repo/" ++ r) ++ ".holoscript") = "/" ++ r) ∧
    (strHasSuffix ("/holo/repo/" ++ r) ".holoscript" = false →
     HoloApply.strategyOf ("/holo/repo/" ++ r) = HoloApply.Strategy.copy ∧
     HoloApply.repoBasePathOf ("/holo/repo/" ++ r) = "/holo/repo/" ++ r ∧
     HoloApply.targetPathOf ("/holo/repo/" ++ r) = "/" ++ r) := by
  constructor
  · refine ⟨?_, ?_, ?_⟩
    · simp [HoloApply.strategyOf, strHasSuffix_append]
    · simp [HoloApply.repoBasePathOf, strHasSuffix_append, strTrimSuffix_append]
    · simp [HoloApply.targetPathOf, HoloApply.repoBasePathOf, strHasSuffix_append,
        strTrimSuffix_append, pathRel_repoRoot, pathJoin]
  · intro hns
    exact ⟨HoloApply.strategyOf_plain hns,
      by simp [HoloApply.repoBasePathOf, hns],
      HoloApply.targetPathOf_plain r hns⟩

theorem claim_C7_witness :
    strHasSuffix ("/holo/repo/" ++ "etc/app.conf") ".holoscript" = false ∧
    (HoloApply.strategyOf (("/holo/repo/" ++ "etc/app.conf") ++ ".holoscript") =
        HoloApply.Strategy.externalProgram ∧
     HoloApply.repoBasePathOf (("/holo/repo/" ++ "etc/app.conf") ++ ".holoscript") =
        "/holo/repo/" ++ "etc/app.conf" ∧
     HoloApply.targetPathOf (("/holo/repo/" ++ "etc/app.conf") ++ ".holoscript") =
        "/" ++ "etc/app.conf") ∧
    (HoloApply.strategyOf ("/holo/repo/" ++ "etc/app.conf") = HoloApply.Strategy.copy ∧
     HoloApply.repoBasePathOf ("/holo/repo/" ++ "etc/app.conf") =
        "/holo/repo/" ++ "etc/app.conf" ∧
     HoloApply.targetPathOf ("/holo/repo/" ++ "etc/app.conf") = "/" ++ "etc/app.conf") :=
  ⟨by decide, (claim_C7 "etc/app.conf").1, (claim_C7 "etc/app.conf").2 (by decide)⟩

/-! Remaining infrastructure for the `CopyFile` claims. -/

theorem OS.resolve_symlink_once {fs : FS} {p t : Path} {m : Meta}
    (h : fs p = some (Node.symlink t m)) (ht : fs t = none) :
    OS.resolve fs p = some t := by
  have e0 : OS.resolve fs p = (match fs p with
      | some (Node.symlink t' _) => OS.resolveFuel fs 39 t'
      | _ => some p) := rfl
  rw [e0, h]
  show OS.resolveFuel fs 39 t = some t
  have e1 : OS.resolveFuel fs 39 t = (match fs t with
      | some (Node.symlink t' _) => OS.resolveFuel fs 38 t'
      | _ => some t) := rfl
  rw [e1, ht]

theorem OS.resolve_other {fs : FS} {p : Path} {m : Meta}
    (h : fs p = some (Node.other m)) : OS.resolve fs p = some p := by
  show OS.resolveFuel fs (Nat.succ 39) p = some p
  simp [OS.resolveFuel, h]

theorem OS.writeFile_other {env : Env} {fs : FS} {p : Path} {m : Meta}
    (data : List Nat) (perm : Nat) (h : fs p = some (Node.other m)) :
    OS.writeFile env fs p data perm = some fs := by
  simp [OS.writeFile, OS.resolve_other h, h]

/-- C5, counterexample: three successful runs of `CopyFile` from an existing
regular file after which the destination does not hold the source's content
and metadata.  First, a symlink destination: in `fsC5`, `/d` is a dangling
symlink to `/e`; the copy writes the content through the link to `/e` and
`ApplyFilePermissions` skips the symlink destination, so `/d` is still the
old symlink, with its old mtime (50) instead of the source's (7).  Second, a
special-file destination: in `fsC5b`, `/devnull` is a writable device; the
write is consumed by the device and the destination stays a device holding
no content, not a regular file with the source's content.  Third, an aliased
destination: copying `/s` onto itself succeeds, but `WriteFile` refreshes
the mtime before `ApplyFilePermissions` re-reads it, so the destination ends
with the copy time (100) instead of the source's pre-copy mtime (7). -/
theorem claim_C5_cex :
    (fsC5 "/s" = some (Node.regular [1] (Meta.mk 420 3 4 7)) ∧
     Common.CopyFile envW fsC5 "/s" "/d" = Except.ok fsC5' ∧
     fsC5' "/d" = some (Node.symlink "/e" (Meta.mk 511 0 0 50)) ∧
     (Meta.mk 511 0 0 50).mtime ≠ (Meta.mk 420 3 4 7).mtime) ∧
    (fsC5b "/s" = some (Node.regular [1] (Meta.mk 420 3 4 7)) ∧
     fsC5b "/devnull" = some (Node.other (Meta.mk 438 0 0 50)) ∧
     Common.CopyFile envW fsC5b "/s" "/devnull" = Except.ok fsC5b' ∧
     fsC5b' "/devnull" = some (Node.other (Meta.mk 420 3 4 7))) ∧
    (fsC5c "/s" = some (Node.regular [1] (Meta.mk 420 3 4 7)) ∧
     Common.CopyFile envW fsC5c "/s" "/s" = Except.ok fsC5c' ∧
     fsC5c' "/s" = some (Node.regular [1] (Meta.mk 420 3 4 100)) ∧
     (100 : Int) ≠ (7 : Int)) := by
  refine ⟨⟨by decide, ?_, by decide, by decide⟩,
    ⟨by decide, by decide, rfl, by decide⟩,
    ⟨by decide, rfl, by decide, by decide⟩⟩
  have h1 := @OS.readFile_regular fsC5 "/s" [1] (Meta.mk 420 3 4 7) (by decide)
  have hres := @OS.resolve_symlink_once fsC5 "/d" "/e" (Meta.mk 511 0 0 50)
    (by decide) (by decide)
  have h2 : OS.writeFile envW fsC5 "/d" [1] 384 = some fsC5' := by
    simp only [OS.writeFile, hres, show fsC5 "/e" = none by decide]
    rfl
  simp [Common.CopyFile, OS.lstat, show fsC5 "/s" = some (Node.regular [1]
      (Meta.mk 420 3 4 7)) by decide,
    Node.isRegular, Common.copyFileImpl, h1, h2,
    Common.ApplyFilePermissions, fsC5',
    show (FS.set fsC5 "/e" (Node.regular [1] (Meta.mk 384 0 0 100))) "/s" =
      some (Node.regular [1] (Meta.mk 420 3 4 7)) by decide,
    show (FS.set fsC5 "/e" (Node.regular [1] (Meta.mk 384 0 0 100))) "/d" =
      some (Node.symlink "/e" (Meta.mk 511 0 0 50)) by decide,
    Common.IsFileInfoASymbolicLink]

/-- C5, amended: for a source that is an existing regular file and a
destination path distinct from the source at which neither a symlink nor a
special (device) file currently sits, a successful `CopyFile(from, to)`
leaves the destination a regular file with content equal to the source's
and with the source's mode, ownership and mtime — in particular the mtime
equality the engine relies on as its drift oracle is re-established by
every such copy. -/
theorem claim_C5 (env : Env) (fs : FS) (fromP toP : Path) (c : List Nat)
    (m : Meta) (fs' : FS)
    (hf : fs fromP = some (Node.regular c m))
    (hne : fromP ≠ toP)
    (hnl : isSymlinkAt fs toP = false)
    (hsp : isSpecialAt fs toP = false)
    (hok : Common.CopyFile env fs fromP toP = Except.ok fs') :
    fs' toP = some (Node.regular c m) := by
  cases hto : fs toP with
  | none =>
    rw [Common.CopyFile_regular_to_new hf hto hne] at hok
    injection hok with h
    rw [← h]
    exact FS.set_self ..
  | some n =>
    cases n with
    | regular ct mt =>
      rw [Common.CopyFile_regular_to_regular hf hto hne] at hok
      injection hok with h
      rw [← h]
      exact FS.set_self ..
    | symlink t lm =>
      rw [isSymlinkAt, hto] at hnl
      simp [Common.IsFileInfoASymbolicLink] at hnl
    | dir md =>
      have h1 := OS.readFile_regular hf
      have h2 := @OS.writeFile_dir env _ _ _ c 384 hto
      simp [Common.CopyFile, OS.lstat, hf, Node.isRegular, Common.copyFileImpl,
        h1, h2] at hok
    | other mo =>
      rw [isSpecialAt, hto] at hsp
      simp at hsp

theorem claim_C5_witness :
    fsW5 "/s" = some (Node.regular [1] (Meta.mk 420 3 4 7)) ∧
    "/s" ≠ "/d" ∧
    isSymlinkAt fsW5 "/d" = false ∧
    isSpecialAt fsW5 "/d" = false ∧
    Common.CopyFile envW fsW5 "/s" "/d" =
      Except.ok (FS.set fsW5 "/d" (Node.regular [1] (Meta.mk 420 3 4 7))) ∧
    FS.set fsW5 "/d" (Node.regular [1] (Meta.mk 420 3 4 7)) "/d" =
      some (Node.regular [1] (Meta.mk 420 3 4 7)) :=
  ⟨by decide, by decide, by decide, by decide,
   @Common.CopyFile_regular_to_regular envW fsW5 "/s" "/d" [1] [2]
     (Meta.mk 420 3 4 7) (Meta.mk 493 5 6 9) (by decide) (by decide) (by decide),
   claim_C5 envW fsW5 "/s" "/d" [1] (Meta.mk 420 3 4 7)
     (FS.set fsW5 "/d" (Node.regular [1] (Meta.mk 420 3 4 7)))
     (by decide) (by decide) (by decide) (by decide)
     (@Common.CopyFile_regular_to_regular envW fsW5 "/s" "/d" [1] [2]
       (Meta.mk 420 3 4 7) (Meta.mk 493 5 6 9) (by decide) (by decide) (by decide))⟩

/-- C8: `IsNewerThan` treats a symlink first argument as never newer: for
every filesystem in which the first path holds a symlink (with any metadata,
so regardless of the actual mtimes) and the second path holds any entry at
all, the result is `ok false` with no error — so the later engine's
integrity check, which consults this function, never reports a symlink
target as user-modified. -/
theorem claim_C8 (fs : FS) (p1 p2 t : Path) (m : Meta) (n2 : Node)
    (h1 : fs p1 = some (Node.symlink t m)) (h2 : fs p2 = some n2) :
    Common.IsNewerThan fs p1 p2 = Except.ok false := by
  simp [Common.IsNewerThan, OS.lstat, h1, h2, Common.IsFileInfoASymbolicLink]

theorem claim_C8_witness :
    fsW8 "/ln" = some (Node.symlink "/tgt" (metaW 99)) ∧
    fsW8 "/f" = some (Node.regular [1] (metaW 1)) ∧
    (metaW 1).mtime < (metaW 99).mtime ∧
    Common.IsNewerThan fsW8 "/ln" "/f" = Except.ok false :=
  ⟨by decide, by decide, by decide,
   claim_C8 fsW8 "/ln" "/f" "/tgt" (metaW 99) (Node.regular [1] (metaW 1))
     (by decide) (by decide)⟩

/-- C10: copying a symlink source.  First conjunct: when a manageable entry
(regular file or symlink) sits at the destination and its removal does not
fail, `CopyFile` deletes it and creates a fresh symlink with the same link
target, carrying only creation defaults (mode 0777, the copier's identity
and time) — no mode, ownership or timestamp is applied from the source,
whose metadata `mf` does not occur in the result.  Second conjunct: with
nothing at the destination, the fresh symlink is created directly.  Third
conjunct: `ApplyFilePermissions` leaves a destination that is itself a
symlink entirely untouched, returning the filesystem unchanged. -/
theorem claim_C10 :
    (∀ (env : Env) (fs : FS) (fromP toP t : Path) (mf : Meta),
      fs fromP = some (Node.symlink t mf) →
      Common.IsManageableFile fs toP = true →
      env.removeFails toP = false →
      Common.CopyFile env fs fromP toP =
        Except.ok ((FS.del fs toP).set toP (Node.symlink t
          { mode := 511, uid := env.uid, gid := env.gid, mtime := env.now }))) ∧
    (∀ (env : Env) (fs : FS) (fromP toP t : Path) (mf : Meta),
      fs fromP = some (Node.symlink t mf) →
      fs toP = none →
      Common.CopyFile env fs fromP toP =
        Except.ok (FS.set fs toP (Node.symlink t
          { mode := 511, uid := env.uid, gid := env.gid, mtime := env.now }))) ∧
    (∀ (fs : FS) (fromP toP : Path) (nf nt : Node),
      fs fromP = some nf →
      fs toP = some nt →
      Common.IsFileInfoASymbolicLink nt = true →
      Common.ApplyFilePermissions fs fromP toP = Except.ok fs) := by
  refine ⟨?_, ?_, ?_⟩
  · intro env fs fromP toP t mf hf hm hrf
    have hrm := OS.remove_manageable hrf hm
    simp [Common.CopyFile, OS.lstat, hf, Node.isRegular, Common.copySymlinkImpl,
      OS.readlink, hm, hrm, OS.symlink, FS.del_self]
  · intro env fs fromP toP t mf hf hto
    have hm : Common.IsManageableFile fs toP = false := by
      simp [Common.IsManageableFile, OS.lstat, hto]
    simp [Common.CopyFile, OS.lstat, hf, Node.isRegular, Common.copySymlinkImpl,
      OS.readlink, hm, OS.symlink, hto]
  · intro fs fromP toP nf nt hff hto hsl
    simp [Common.ApplyFilePermissions, OS.lstat, hff, hto, hsl]

theorem claim_C10_witness :
    fsW10 "/ln" = some (Node.symlink "/tgt" (metaW 7)) ∧
    Common.IsManageableFile fsW10 "/old" = true ∧
    envW.removeFails "/old" = false ∧
    Common.CopyFile envW fsW10 "/ln" "/old" =
      Except.ok ((FS.del fsW10 "/old").set "/old" (Node.symlink "/tgt"
        { mode := 511, uid := envW.uid, gid := envW.gid, mtime := envW.now })) ∧
    fsW10 "/new" = none ∧
    Common.CopyFile envW fsW10 "/ln" "/new" =
      Except.ok (FS.set fsW10 "/new" (Node.symlink "/tgt"
        { mode := 511, uid := envW.uid, gid := envW.gid, mtime := envW.now })) ∧
    Common.IsFileInfoASymbolicLink (Node.symlink "/tgt" (metaW 7)) = true ∧
    Common.ApplyFilePermissions fsW10 "/old" "/ln" = Except.ok fsW10 :=
  ⟨by decide, by decide, by decide,
   claim_C10.1 envW fsW10 "/ln" "/old" "/tgt" (metaW 7)
     (by decide) (by decide) (by decide),
   by decide,
   claim_C10.2.1 envW fsW10 "/ln" "/new" "/tgt" (metaW 7)
     (by decide) (by decide),
   by decide,
   claim_C10.2.2 fsW10 "/old" "/ln" (Node.regular [9] (metaW 3))
     (Node.symlink "/tgt" (metaW 7)) (by decide) (by decide) (by decide)⟩

end HoloAttic
